import Mathlib

/-!
Shallow embedding of the audio playback engine in `src/lib/SoundManager.ts`
(the module imported by the application entry points), together with the
declared data model in `src/types/index.ts`.

Modelling conventions:
* `sound.type` is a string in the source (TypeScript compares it against
  string literals in `switch`/`if`), so it is embedded as a `String` field.
  The declared union `SoundType` of `src/types/index.ts` is embedded as the
  predicate `DeclaredSoundType`.
* Volumes and fade multipliers are exact rationals (`ℚ`); the source uses
  JS numbers but only ever adds/subtracts the constant step
  `fadeIntervalMs / fadeTimeMs = 50 / 2500 = 1/50` and multiplies volumes,
  so rational arithmetic mirrors it exactly on the inputs considered here.
* The `activeSounds : Map<string, ActiveSound>` is embedded as an
  insertion-ordered association list with the JS `Map` operations
  (`get`/`set`/`delete` preserve insertion order; `set` on an existing key
  updates in place).
* A `GainNode` is abstracted by the last target value the engine scheduled
  on it (`gain.value = v` or `gain.setTargetAtTime(v, …)` both record `v`
  in `gainTarget`; the exponential approach of `setTargetAtTime` is not
  modelled, only its target).
* The fade timers (`setInterval` every `fadeIntervalMs`) are embedded as an
  explicit `tick` step that advances every in-flight fade by one interval
  step; `clearInterval`/restart is embedded by overwriting the `fade` field.
* `element.play()` for streamed sounds is assumed to resolve successfully
  (the success path of `startStreamedSound`); fetch/decode of one-shot
  buffers is given an explicit `fetchOk : Bool` oracle so both the success
  and the failure path of `loadSound` are in the model.
* The `AudioContext` suspend/resume axis (`toggleGlobalPlayPause`,
  `ensureAudioContextReady`) does not touch the registry and is not needed
  by any claim; it is outside the model.
-/

namespace SoundsSpec

/-- Fade timer state of an `ActiveSound`: `idle` models
`fadeInterval = null`, the other two model an interval registered by
`fadeIn` resp. `fadeOut` (whose `onComplete`, at the only call site
`stopSound`, is `stopImmediate`). -/
inductive FadeState where
  | idle
  | fadingIn
  | fadingOut
deriving DecidableEq, Repr

/-- The `Sound` record of `src/types/index.ts`, restricted to the fields the
engine reads. `type` is kept as a raw string exactly as TypeScript compares
it. -/
structure Sound where
  id : String
  name : String
  type : String
  volume : ℚ
  loop : Bool
  publicURL : Option String
deriving DecidableEq, Repr

/-- The declared `SoundType` union of `src/types/index.ts`:
`'Background Music' | 'Ambience' | 'Sound Effect'`. -/
def DeclaredSoundType (t : String) : Prop :=
  t = "Background Music" ∨ t = "Ambience" ∨ t = "Sound Effect"

instance (t : String) : Decidable (DeclaredSoundType t) := by
  unfold DeclaredSoundType; infer_instance

/-- The engine's `ActiveSound` record. `streamed = true` means the
`audioElement`/`mediaElementSource` pair is present (BGM/Ambience),
`streamed = false` means a `bufferSource` is present (one-shots).
`gainTarget` is the last value scheduled on `gainNode.gain`. -/
structure ActiveSound where
  id : String
  sound : Sound
  gainTarget : ℚ
  streamed : Bool
  volumeMultiplier : ℚ
  fade : FadeState
deriving DecidableEq, Repr

/-- Engine state: `sfxBuffers` is the set of sound ids whose decoded buffer
is cached (insertion order kept as in a JS `Map`); `activeSounds` is the
registry; `sfxStarts` is a ghost log of every `playSfxInternal` invocation
(i.e. every one-shot playback actually started), used to state the
playback-count claims. -/
structure SoundManager where
  sfxBuffers : List String
  activeSounds : List ActiveSound
  masterBGMVolume : ℚ
  sfxStarts : List String
deriving DecidableEq, Repr

/-- `activeSounds.get(i)` on the insertion-ordered registry. -/
def mapGet (l : List ActiveSound) (i : String) : Option ActiveSound :=
  l.find? (fun a => decide (a.id = i))

/-- `activeSounds.set(x.id, x)`: update in place if the key is present,
otherwise append (JS `Map` insertion-order semantics). -/
def mapSet (l : List ActiveSound) (x : ActiveSound) : List ActiveSound :=
  if l.any (fun a => decide (a.id = x.id)) then
    l.map (fun a => if a.id = x.id then x else a)
  else
    l ++ [x]

/-- `activeSounds.delete(i)`. -/
def mapDelete (l : List ActiveSound) (i : String) : List ActiveSound :=
  l.filter (fun a => decide (¬ a.id = i))

/-- One fade-interval step as a fraction of the full fade:
`fadeIntervalMs / fadeTimeMs = 50 / 2500` (written `mkRat 50 2500`, the
same rational, so that concrete states are kernel-computable;
`fadeStep_eq_div` below states the literal division). -/
def fadeStep : ℚ := mkRat 50 2500

/-- `updateVolume`: `targetVol = sound.volume * volumeMultiplier`, scaled by
`masterBGMVolume` for Background Music, then scheduled on the gain node
(`setTargetAtTime`, modelled as setting `gainTarget`). -/
def updateVolume (master : ℚ) (a : ActiveSound) : ActiveSound :=
  { a with gainTarget :=
      a.sound.volume * a.volumeMultiplier *
        (if a.sound.type = "Background Music" then master else 1) }

/-- One timer firing for one `ActiveSound`, following `fadeIn`/`fadeOut`:
fading in adds `fadeStep` to the multiplier, clamps at 1 (clearing the
interval) and calls `updateVolume`; fading out subtracts `fadeStep`, and on
reaching 0 clears the interval, updates the volume and runs the completion
callback `stopImmediate`, i.e. the entry disappears (`none`). -/
def tickOne (master : ℚ) (a : ActiveSound) : Option ActiveSound :=
  match a.fade with
  | FadeState.idle => some a
  | FadeState.fadingIn =>
      let m := a.volumeMultiplier + fadeStep
      if 1 ≤ m then
        some (updateVolume master { a with volumeMultiplier := 1, fade := FadeState.idle })
      else
        some (updateVolume master { a with volumeMultiplier := m })
  | FadeState.fadingOut =>
      let m := a.volumeMultiplier - fadeStep
      if m ≤ 0 then none
      else some (updateVolume master { a with volumeMultiplier := m })

/-- Advance every in-flight fade by one interval step. (Each sound's fade
runs on its own 50 ms interval; the intervals are independent and each
callback touches only its own sound, so stepping them together is the
product of stepping each one.) -/
def tick (st : SoundManager) : SoundManager :=
  { st with activeSounds := st.activeSounds.filterMap (tickOne st.masterBGMVolume) }

/-- `stopImmediate(activeSound)`: clears its interval, tears down its nodes
and deletes it from the registry (then republishes state). Only the
registry deletion is observable in the model. -/
def stopImmediate (st : SoundManager) (i : String) : SoundManager :=
  { st with activeSounds := mapDelete st.activeSounds i }

/-- `stopSound(sound)`: look the id up; absent is a no-op; a one-shot is
stopped immediately; a streamed sound gets `fadeOut` (clearing any current
interval and starting a fade-out whose completion runs `stopImmediate`). -/
def stopSound (s : Sound) (st : SoundManager) : SoundManager :=
  match mapGet st.activeSounds s.id with
  | none => st
  | some _ =>
      if s.type = "One-shots" then
        stopImmediate st s.id
      else
        { st with activeSounds :=
            st.activeSounds.map (fun b =>
              if b.id = s.id then { b with fade := FadeState.fadingOut } else b) }

/-- `startStreamedSound(sound, isBGM)` on the success path: requires a
`publicURL`, creates the element and the `source → gain → master` chain
with gain 0, registers the `ActiveSound`, and once `element.play()`
resolves starts `fadeIn`. The `isBGM` flag is passed through to `fadeIn`
exactly as in the source (where `fadeIn` does not use it). -/
def startStreamedSound (s : Sound) (isBGM : Bool) (st : SoundManager) : SoundManager :=
  match s.publicURL with
  | none => st
  | some _ =>
      let _ := isBGM
      let a : ActiveSound :=
        { id := s.id, sound := s, gainTarget := 0, streamed := true
          volumeMultiplier := 0, fade := FadeState.fadingIn }
      { st with activeSounds := mapSet st.activeSounds a }

/-- `playBGM(sound)`: a no-op when the id is already registered; otherwise
every currently registered Background-Music entry is stopped (which
triggers its fade-out) and the new track is started as a streamed sound. -/
def playBGM (s : Sound) (st : SoundManager) : SoundManager :=
  if (mapGet st.activeSounds s.id).isSome then st
  else
    let otherBGMs := st.activeSounds.filter
      (fun a => decide (a.sound.type = "Background Music"))
    let st1 := otherBGMs.foldl (fun acc a => stopSound a.sound acc) st
    startStreamedSound s true st1

/-- `playAmbience(sound)`: a no-op when the id is already registered;
otherwise start it as a streamed sound. -/
def playAmbience (s : Sound) (st : SoundManager) : SoundManager :=
  if (mapGet st.activeSounds s.id).isSome then st
  else startStreamedSound s false st

/-- `loadSound(sound)`: only one-shots are pre-decoded. Already cached or
lacking a `publicURL` is a no-op; otherwise fetch + decode either succeeds
(`fetchOk = true`, buffer cached) or fails (error logged, cache entry left
absent). -/
def loadSound (s : Sound) (fetchOk : Bool) (st : SoundManager) : SoundManager :=
  if s.type = "One-shots" then
    if s.id ∈ st.sfxBuffers ∨ s.publicURL = none then st
    else if fetchOk then { st with sfxBuffers := st.sfxBuffers ++ [s.id] }
    else st
  else st

/-- `playSfxInternal(sound, buffer)`: build a buffer source with gain set
immediately to `sound.volume`, register the `ActiveSound` (replacing any
entry under the same key) and start it; the start is recorded in the ghost
log `sfxStarts`. -/
def playSfxInternal (s : Sound) (st : SoundManager) : SoundManager :=
  let a : ActiveSound :=
    { id := s.id, sound := s, gainTarget := s.volume, streamed := false
      volumeMultiplier := 1, fade := FadeState.idle }
  { st with activeSounds := mapSet st.activeSounds a
            sfxStarts := st.sfxStarts ++ [s.id] }

/-- `playSoundEffect(sound)`: with the buffer cached, an instance already
active under the same id is stopped immediately and the clip is (re)started;
with no cached buffer the sound is loaded on demand and, if the buffer is
then present, started exactly once. -/
def playSoundEffect (s : Sound) (fetchOk : Bool) (st : SoundManager) : SoundManager :=
  if s.id ∈ st.sfxBuffers then
    let st1 := if (mapGet st.activeSounds s.id).isSome then stopImmediate st s.id else st
    playSfxInternal s st1
  else
    let st1 := loadSound s fetchOk st
    if s.id ∈ st1.sfxBuffers then playSfxInternal s st1 else st1

/-- `playSound(sound)`: the category dispatch (`switch (sound.type)`) with
cases `'Background Music'`, `'Ambience'`, `'One-shots'`; any other string
falls through the switch and nothing happens. -/
def playSound (s : Sound) (fetchOk : Bool) (st : SoundManager) : SoundManager :=
  if s.type = "Background Music" then playBGM s st
  else if s.type = "Ambience" then playAmbience s st
  else if s.type = "One-shots" then playSoundEffect s fetchOk st
  else st

/-- `stopAllSounds()`: iterate over a snapshot of the registry values and
`stopImmediate` each one. -/
def stopAllSounds (st : SoundManager) : SoundManager :=
  st.activeSounds.foldl (fun acc a => stopImmediate acc a.id) st

/-- `setMasterBGMVolume(volume)`: store the new master level, then run
`updateVolume` on every Background-Music entry (each iteration touches only
its own entry). -/
def setMasterBGMVolume (v : ℚ) (st : SoundManager) : SoundManager :=
  { st with masterBGMVolume := v
            activeSounds := st.activeSounds.map (fun a =>
              if a.sound.type = "Background Music" then updateVolume v a else a) }

/-- `isPlaying(soundId)`. -/
def isPlaying (st : SoundManager) (i : String) : Bool :=
  (mapGet st.activeSounds i).isSome

/-- The `source.onended` handler installed by `playSfxInternal`: when the
buffered source for `i` reaches its natural end, the handler removes the
entry only if it is still the same instance. A stale handler (the entry was
replaced) is a no-op; the model approximates the identity check by firing
only on a buffered (`streamed = false`) entry. -/
def sfxEnded (st : SoundManager) (i : String) : SoundManager :=
  match mapGet st.activeSounds i with
  | none => st
  | some a => if a.streamed then st else stopImmediate st i

/-- The engine state right after the constructor: empty cache, empty
registry, `masterBGMVolume = 0.5` (written `mkRat 1 2`, the same rational;
see `initialState_master_eq_div`). -/
def initialState : SoundManager :=
  { sfxBuffers := [], activeSounds := [], masterBGMVolume := mkRat 1 2, sfxStarts := [] }

/-- One observable step of the engine: a public operation called by the
host with a sound drawn from the host's library `lib`, or the firing of a
fade timer / one-shot end event. -/
inductive Step (lib : List Sound) : SoundManager → SoundManager → Prop where
  | play (st : SoundManager) (s : Sound) (f : Bool) (hs : s ∈ lib) :
      Step lib st (playSound s f st)
  | stop (st : SoundManager) (s : Sound) (hs : s ∈ lib) :
      Step lib st (stopSound s st)
  | load (st : SoundManager) (s : Sound) (f : Bool) (hs : s ∈ lib) :
      Step lib st (loadSound s f st)
  | stopAll (st : SoundManager) :
      Step lib st (stopAllSounds st)
  | setMaster (st : SoundManager) (v : ℚ) :
      Step lib st (setMasterBGMVolume v st)
  | timer (st : SoundManager) :
      Step lib st (tick st)
  | ended (st : SoundManager) (i : String) :
      Step lib st (sfxEnded st i)

/-- States reachable from the freshly constructed engine. -/
inductive Reach (lib : List Sound) : SoundManager → Prop where
  | init : Reach lib initialState
  | step (st st' : SoundManager) : Reach lib st → Step lib st st' → Reach lib st'

/-- A Background-Music registry entry that is not on its way out: these are
the entries that can be (or become) audible without a further `play`. -/
def bgmLive (a : ActiveSound) : Bool :=
  decide (a.sound.type = "Background Music") && decide (a.fade ≠ FadeState.fadingOut)

/-- The pointwise effect of `fadeOut` bookkeeping on one entry: mark the
entry with the given id as fading out. -/
def markOut (i : String) (b : ActiveSound) : ActiveSound :=
  if b.id = i then { b with fade := FadeState.fadingOut } else b

/-- A well-formed host library: the sound id determines the sound record
(sounds come from a store keyed by id). -/
def LibWF (lib : List Sound) : Prop :=
  ∀ s ∈ lib, ∀ t ∈ lib, s.id = t.id → s = t

instance (lib : List Sound) : Decidable (LibWF lib) := by
  unfold LibWF; infer_instance

/-- Structural invariant of the registry: entries are keyed by their own
sound's id, keys are unique (it is a `Map`), and at most one
Background-Music entry is not fading out. -/
def InvW (st : SoundManager) : Prop :=
  (∀ a ∈ st.activeSounds, a.id = a.sound.id)
  ∧ (st.activeSounds.map (fun a => a.id)).Nodup
  ∧ st.activeSounds.countP bgmLive ≤ 1

instance (st : SoundManager) : Decidable (InvW st) := by
  unfold InvW; infer_instance

/-- Library-relative invariant: every registered sound comes from the host
library, and an entry can only be fading out if its sound is a streamed
category (one-shots are always stopped immediately). -/
def InvT (lib : List Sound) (st : SoundManager) : Prop :=
  ∀ a ∈ st.activeSounds,
    a.sound ∈ lib ∧ (a.fade = FadeState.fadingOut → a.sound.type ≠ "One-shots")

instance (lib : List Sound) (st : SoundManager) : Decidable (InvT lib st) := by
  unfold InvT; infer_instance

/-! ### Concrete sounds and states used by witnesses and counterexamples -/

/-- A concrete Background-Music sound. -/
def musicA : Sound :=
  { id := "a", name := "A", type := "Background Music", volume := mkRat 4 5
    loop := true, publicURL := some "ua" }

/-- A second concrete Background-Music sound. -/
def musicB : Sound :=
  { id := "b", name := "B", type := "Background Music", volume := mkRat 3 5
    loop := true, publicURL := some "ub" }

/-- A concrete Ambience sound. -/
def ambX : Sound :=
  { id := "x", name := "X", type := "Ambience", volume := mkRat 1 2
    loop := true, publicURL := some "ux" }

/-- A concrete one-shot sound (as produced at runtime, where the service
layer maps the stored category to the string the engine dispatches on). -/
def shotY : Sound :=
  { id := "y", name := "Y", type := "One-shots", volume := mkRat 7 10
    loop := false, publicURL := some "uy" }

/-- A concrete sound carrying the declared effect-category value
`'Sound Effect'` of the `SoundType` union. -/
def fxZ : Sound :=
  { id := "z", name := "Z", type := "Sound Effect", volume := mkRat 1 2
    loop := false, publicURL := some "uz" }

/-- State with `musicA` just started (registered, fading in). -/
def stPlayA : SoundManager := playSound musicA true initialState

/-- State with `musicA` played and then stopped: its entry is mid-fade-out. -/
def stFadeOutA : SoundManager := stopSound musicA stPlayA

/-- State after `play(musicA)` then `play(musicB)`: the crossfade state,
with A marked fading out and B fading in. -/
def stCross : SoundManager := playSound musicB true stPlayA

/-- State after the crossfade state is torn down by `stopAllSounds`. -/
def stAllStopped : SoundManager := stopAllSounds stCross

/-- State with only the one-shot `shotY` playing (an entry with no fade in
flight), reached after the music was played and stopped. -/
def stSettledY : SoundManager := playSound shotY true stAllStopped

/-- State with `ambX` playing. -/
def stPlayX : SoundManager := playSound ambX true initialState

/-- State with the one-shot `shotY` loaded on demand and playing. -/
def stPlayY : SoundManager := playSound shotY true initialState

/-! ### Registry lemmas -/

theorem mapGet_eq_none {l : List ActiveSound} {i : String} :
    mapGet l i = none ↔ ∀ a ∈ l, a.id ≠ i := by
  simp [mapGet, List.find?_eq_none]

theorem mapGet_id {l : List ActiveSound} {i : String} {a : ActiveSound}
    (h : mapGet l i = some a) : a.id = i := by
  have := List.find?_some h
  simpa using this

theorem mapGet_mem {l : List ActiveSound} {i : String} {a : ActiveSound}
    (h : mapGet l i = some a) : a ∈ l :=
  List.mem_of_find?_eq_some h

theorem mapGet_map_of_id {f : ActiveSound → ActiveSound} (l : List ActiveSound) (i : String)
    (hf : ∀ a, (f a).id = a.id) :
    mapGet (l.map f) i = (mapGet l i).map f := by
  unfold mapGet
  rw [List.find?_map]
  have hp : ((fun a : ActiveSound => decide (a.id = i)) ∘ f)
      = (fun a : ActiveSound => decide (a.id = i)) := by
    funext a
    simp [hf a]
  rw [hp]

theorem mapGet_append (l l' : List ActiveSound) (i : String) :
    mapGet (l ++ l') i = (mapGet l i).or (mapGet l' i) := by
  unfold mapGet
  exact List.find?_append

theorem mapSet_of_absent {l : List ActiveSound} {x : ActiveSound}
    (h : mapGet l x.id = none) : mapSet l x = l ++ [x] := by
  unfold mapSet
  rw [if_neg]
  simp only [List.any_eq_true, decide_eq_true_eq, not_exists, not_and]
  intro a ha
  exact mapGet_eq_none.mp h a ha

theorem mapSet_of_present {l : List ActiveSound} {x : ActiveSound}
    (h : (mapGet l x.id).isSome) :
    mapSet l x = l.map (fun a => if a.id = x.id then x else a) := by
  unfold mapSet
  rw [if_pos]
  rw [List.any_eq_true]
  obtain ⟨a, ha⟩ := Option.isSome_iff_exists.mp h
  exact ⟨a, mapGet_mem ha, by simp [mapGet_id ha]⟩

theorem mapGet_mapSet (l : List ActiveSound) (x : ActiveSound) (i : String) :
    mapGet (mapSet l x) i = if x.id = i then some x else mapGet l i := by
  cases hl : mapGet l x.id with
  | none =>
      rw [mapSet_of_absent hl, mapGet_append]
      by_cases hi : x.id = i
      · subst hi
        rw [hl]
        simp [mapGet, List.find?]
      · have hx : mapGet [x] i = none := by
          simp [mapGet, List.find?, hi]
        rw [hx, if_neg hi]
        cases mapGet l i <;> rfl
  | some b =>
      rw [mapSet_of_present (by rw [hl]; rfl)]
      have hid : ∀ a : ActiveSound, ((fun a => if a.id = x.id then x else a) a).id = a.id := by
        intro a
        by_cases h : a.id = x.id <;> simp [h]
      rw [mapGet_map_of_id l i hid]
      by_cases hi : x.id = i
      · subst hi
        rw [hl, if_pos rfl]
        simp [mapGet_id hl]
      · rw [if_neg hi]
        cases hg : mapGet l i with
        | none => rfl
        | some a =>
            have : a.id ≠ x.id := by
              rw [mapGet_id hg]
              exact fun he => hi he.symm
            simp [this]

theorem mapGet_filter_indep {p : ActiveSound → Bool} {l : List ActiveSound} {i : String}
    (hp : ∀ a, a.id = i → p a = true) :
    mapGet (l.filter p) i = mapGet l i := by
  induction l with
  | nil => rfl
  | cons a l ih =>
      by_cases h : a.id = i
      · have hpa : p a = true := hp a h
        simp [List.filter_cons, hpa, mapGet, List.find?_cons, h]
      · by_cases hq : p a
        · simpa [List.filter_cons, hq, mapGet, List.find?_cons, h] using ih
        · simpa [List.filter_cons, hq, mapGet, List.find?_cons, h] using ih

theorem mapGet_mapDelete (l : List ActiveSound) (j i : String) :
    mapGet (mapDelete l j) i = if j = i then none else mapGet l i := by
  by_cases hji : j = i
  · subst hji
    rw [if_pos rfl]
    apply mapGet_eq_none.mpr
    intro a ha
    have := (List.mem_filter.mp ha).2
    simpa using this
  · rw [if_neg hji]
    apply mapGet_filter_indep
    intro a ha
    simp only [decide_eq_true_eq]
    rw [ha]
    exact fun he => hji he.symm

theorem mapGet_filterMap_nodup {f : ActiveSound → Option ActiveSound}
    {l : List ActiveSound} {i : String}
    (hnd : (l.map (fun a => a.id)).Nodup)
    (hf : ∀ a b, f a = some b → b.id = a.id) :
    mapGet (l.filterMap f) i = (mapGet l i).bind f := by
  induction l with
  | nil => rfl
  | cons a l ih =>
      have hnd' : (l.map (fun a => a.id)).Nodup := (List.nodup_cons.mp hnd).2
      have hnin : a.id ∉ l.map (fun a => a.id) := (List.nodup_cons.mp hnd).1
      by_cases h : a.id = i
      · cases hfa : f a with
        | some b =>
            have hb : b.id = a.id := hf a b hfa
            simp [List.filterMap_cons, hfa, mapGet, List.find?_cons, hb, h]
        | none =>
            have hnone : mapGet (l.filterMap f) i = none := by
              apply mapGet_eq_none.mpr
              intro b hb
              obtain ⟨c, hc, hfc⟩ := List.mem_filterMap.mp hb
              rw [hf c b hfc]
              intro he
              exact hnin (by
                rw [h, ← he]
                exact List.mem_map_of_mem (fun a => a.id) hc)
            simp [List.filterMap_cons, hfa, mapGet, List.find?_cons, h] at hnone ⊢
            simpa [mapGet] using hnone
      · cases hfa : f a with
        | some b =>
            have hb : b.id = a.id := hf a b hfa
            simpa [List.filterMap_cons, hfa, mapGet, List.find?_cons, h, hb]
              using ih hnd'
        | none =>
            simpa [List.filterMap_cons, hfa, mapGet, List.find?_cons, h]
              using ih hnd'

/-! ### Pointwise facts about the helper transformations -/

theorem markOut_id (i : String) (b : ActiveSound) : (markOut i b).id = b.id := by
  unfold markOut
  by_cases h : b.id = i <;> simp [h]

theorem markOut_sound (i : String) (b : ActiveSound) : (markOut i b).sound = b.sound := by
  unfold markOut
  by_cases h : b.id = i <;> simp [h]

theorem markOut_volumeMultiplier (i : String) (b : ActiveSound) :
    (markOut i b).volumeMultiplier = b.volumeMultiplier := by
  unfold markOut
  by_cases h : b.id = i <;> simp [h]

theorem markOut_fade (i : String) (b : ActiveSound) :
    (markOut i b).fade = b.fade ∨ (markOut i b).fade = FadeState.fadingOut := by
  unfold markOut
  by_cases h : b.id = i <;> simp [h]

theorem markOut_of_eq {i : String} {b : ActiveSound} (h : b.id = i) :
    markOut i b = { b with fade := FadeState.fadingOut } := by
  unfold markOut
  rw [if_pos h]

theorem markOut_of_ne {i : String} {b : ActiveSound} (h : ¬ b.id = i) :
    markOut i b = b := by
  unfold markOut
  rw [if_neg h]

theorem updateVolume_id (v : ℚ) (a : ActiveSound) : (updateVolume v a).id = a.id := rfl

theorem updateVolume_sound (v : ℚ) (a : ActiveSound) :
    (updateVolume v a).sound = a.sound := rfl

theorem updateVolume_fade (v : ℚ) (a : ActiveSound) :
    (updateVolume v a).fade = a.fade := rfl

theorem updateVolume_volumeMultiplier (v : ℚ) (a : ActiveSound) :
    (updateVolume v a).volumeMultiplier = a.volumeMultiplier := rfl

theorem tickOne_id {v : ℚ} {a b : ActiveSound} (h : tickOne v a = some b) :
    b.id = a.id := by
  unfold tickOne at h
  cases hf : a.fade <;> rw [hf] at h
  · simp only at h
    injection h with h
    rw [← h]
  · simp only at h
    split at h <;> (injection h with h; rw [← h]; rfl)
  · simp only at h
    split at h
    · exact absurd h (by simp)
    · injection h with h
      rw [← h]
      rfl

theorem tickOne_sound {v : ℚ} {a b : ActiveSound} (h : tickOne v a = some b) :
    b.sound = a.sound := by
  unfold tickOne at h
  cases hf : a.fade <;> rw [hf] at h
  · simp only at h
    injection h with h
    rw [← h]
  · simp only at h
    split at h <;> (injection h with h; rw [← h]; rfl)
  · simp only at h
    split at h
    · exact absurd h (by simp)
    · injection h with h
      rw [← h]
      rfl

theorem tickOne_fadingOut {v : ℚ} {a b : ActiveSound}
    (ha : a.fade = FadeState.fadingOut) (h : tickOne v a = some b) :
    b.fade = FadeState.fadingOut ∧ b.volumeMultiplier < a.volumeMultiplier := by
  unfold tickOne at h
  rw [ha] at h
  simp only at h
  split at h
  · exact absurd h (by simp)
  · injection h with h
    constructor
    · rw [← h]
      rfl
    · rw [← h]
      show a.volumeMultiplier - fadeStep < a.volumeMultiplier
      have : (0 : ℚ) < fadeStep := by norm_num [fadeStep]
      linarith

theorem tickOne_not_fadingOut {v : ℚ} {a b : ActiveSound}
    (ha : a.fade ≠ FadeState.fadingOut) (h : tickOne v a = some b) :
    b.fade ≠ FadeState.fadingOut := by
  unfold tickOne at h
  cases hf : a.fade <;> rw [hf] at h
  · simp only at h
    injection h with h
    rw [← h, hf]
    simp
  · simp only at h
    split at h <;> (injection h with h; rw [← h]; simp [updateVolume])
  · exact absurd hf ha

/-! ### Characterizations of the engine operations -/

theorem loadSound_activeSounds (s : Sound) (f : Bool) (st : SoundManager) :
    (loadSound s f st).activeSounds = st.activeSounds := by
  unfold loadSound
  split_ifs <;> rfl

theorem loadSound_sfxStarts (s : Sound) (f : Bool) (st : SoundManager) :
    (loadSound s f st).sfxStarts = st.sfxStarts := by
  unfold loadSound
  split_ifs <;> rfl

theorem stopSound_streamed {s : Sound} (st : SoundManager) (hs : s.type ≠ "One-shots") :
    stopSound s st = { st with activeSounds := st.activeSounds.map (markOut s.id) } := by
  unfold stopSound
  cases hg : mapGet st.activeSounds s.id with
  | none =>
      have : st.activeSounds.map (markOut s.id) = st.activeSounds := by
        rw [List.map_congr_left (fun a ha => markOut_of_ne (mapGet_eq_none.mp hg a ha))]
        simp
      simp only [this]
  | some a =>
      rw [if_neg hs]
      have : (fun b : ActiveSound =>
          if b.id = s.id then { b with fade := FadeState.fadingOut } else b) = markOut s.id := by
        funext b
        rfl
      rw [this]

theorem stopSound_oneshot {s : Sound} {st : SoundManager} {a : ActiveSound}
    (hg : mapGet st.activeSounds s.id = some a) (hs : s.type = "One-shots") :
    stopSound s st = stopImmediate st s.id := by
  unfold stopSound
  rw [hg]
  simp only [hs, if_pos]

theorem stopSound_absent {s : Sound} {st : SoundManager}
    (hg : mapGet st.activeSounds s.id = none) : stopSound s st = st := by
  unfold stopSound
  rw [hg]

theorem foldl_markOut (xs : List ActiveSound) (b : ActiveSound) :
    xs.foldl (fun c a => markOut a.sound.id c) b
      = if xs.any (fun a => decide (a.sound.id = b.id)) then
          { b with fade := FadeState.fadingOut } else b := by
  induction xs generalizing b with
  | nil => simp
  | cons x xs ih =>
      rw [List.foldl_cons]
      by_cases h : b.id = x.sound.id
      · rw [markOut_of_eq h, ih]
        have hany : (x :: xs).any (fun a => decide (a.sound.id = b.id)) = true := by
          simp [List.any_cons, h.symm]
        rw [if_pos hany]
        by_cases h2 : xs.any (fun a =>
            decide (a.sound.id = ({ b with fade := FadeState.fadingOut } : ActiveSound).id)) = true
        · rw [if_pos h2]
        · rw [if_neg h2]
      · rw [markOut_of_ne h, ih]
        have : (x :: xs).any (fun a => decide (a.sound.id = b.id))
             = xs.any (fun a => decide (a.sound.id = b.id)) := by
          have hx : decide (x.sound.id = b.id) = false := by
            simp
            exact fun he => h he.symm
          simp [List.any_cons, hx]
        rw [this]

theorem foldl_stopSound (xs : List ActiveSound) (st : SoundManager)
    (hxs : ∀ a ∈ xs, a.sound.type ≠ "One-shots") :
    xs.foldl (fun acc a => stopSound a.sound acc) st
      = { st with activeSounds :=
            st.activeSounds.map (fun b => xs.foldl (fun c a => markOut a.sound.id c) b) } := by
  induction xs generalizing st with
  | nil => simp
  | cons x xs ih =>
      rw [List.foldl_cons, stopSound_streamed st (hxs x (by simp))]
      rw [ih _ (fun a ha => hxs a (by simp [ha]))]
      simp only [List.map_map]
      rfl

theorem stopAll_registry_aux (xs : List ActiveSound) (st : SoundManager)
    (h : ∀ b ∈ st.activeSounds, ∃ a ∈ xs, b.id = a.id) :
    (xs.foldl (fun acc a => stopImmediate acc a.id) st).activeSounds = [] := by
  induction xs generalizing st with
  | nil =>
      cases hl : st.activeSounds with
      | nil => simpa [List.foldl_nil] using hl
      | cons b l =>
          obtain ⟨a, ha, _⟩ := h b (by rw [hl]; exact List.mem_cons_self b l)
          exact absurd ha (List.not_mem_nil a)
  | cons x xs ih =>
      rw [List.foldl_cons]
      apply ih
      intro b hb
      have hb' := List.mem_filter.mp hb
      have hbne : ¬ b.id = x.id := by
        have := hb'.2
        simpa using this
      obtain ⟨a, ha, hid⟩ := h b hb'.1
      cases List.mem_cons.mp ha with
      | inl he => exact absurd (he ▸ hid) hbne
      | inr hm => exact ⟨a, hm, hid⟩

theorem foldl_stopImmediate_fields (xs : List ActiveSound) (st : SoundManager) :
    (xs.foldl (fun acc a => stopImmediate acc a.id) st).sfxBuffers = st.sfxBuffers
  ∧ (xs.foldl (fun acc a => stopImmediate acc a.id) st).masterBGMVolume = st.masterBGMVolume
  ∧ (xs.foldl (fun acc a => stopImmediate acc a.id) st).sfxStarts = st.sfxStarts := by
  induction xs generalizing st with
  | nil => exact ⟨rfl, rfl, rfl⟩
  | cons x xs ih =>
      rw [List.foldl_cons]
      exact ih (stopImmediate st x.id)

theorem countP_filterMap_le (f : ActiveSound → Option ActiveSound) (p : ActiveSound → Bool)
    (l : List ActiveSound) (hpf : ∀ a b, f a = some b → p b = true → p a = true) :
    (l.filterMap f).countP p ≤ l.countP p := by
  induction l with
  | nil => simp
  | cons a l ih =>
      rw [List.filterMap_cons]
      cases hfa : f a with
      | none =>
          rw [List.countP_cons]
          exact le_trans ih (Nat.le_add_right _ _)
      | some b =>
          rw [List.countP_cons, List.countP_cons]
          by_cases hb : p b = true
          · rw [if_pos hb, if_pos (hpf a b hfa hb)]
            exact Nat.add_le_add_right ih 1
          · rw [if_neg hb]
            simp only [add_zero]
            exact le_trans ih (Nat.le_add_right _ _)

theorem countP_mapSet_le (l : List ActiveSound) (x : ActiveSound) (p : ActiveSound → Bool)
    (hx : p x = false) : (mapSet l x).countP p ≤ l.countP p := by
  cases hl : mapGet l x.id with
  | none =>
      rw [mapSet_of_absent hl, List.countP_append]
      simp [List.countP_cons, hx]
  | some b =>
      rw [mapSet_of_present (by rw [hl]; rfl), List.countP_map]
      apply List.countP_mono_left
      intro a _ hpa
      simp only [Function.comp] at hpa
      by_cases he : a.id = x.id
      · rw [if_pos he] at hpa
        exact absurd hpa (by rw [hx]; simp)
      · rwa [if_neg he] at hpa

theorem ids_sublist_filterMap (f : ActiveSound → Option ActiveSound)
    (hf : ∀ a b, f a = some b → b.id = a.id) (l : List ActiveSound) :
    ((l.filterMap f).map (fun a => a.id)).Sublist (l.map (fun a => a.id)) := by
  induction l with
  | nil => simp
  | cons a l ih =>
      rw [List.filterMap_cons]
      cases hfa : f a with
      | none =>
          rw [List.map_cons]
          exact ih.cons _
      | some b =>
          rw [List.map_cons, List.map_cons, hf a b hfa]
          exact ih.cons₂ _

theorem ids_map_of_id (f : ActiveSound → ActiveSound) (l : List ActiveSound)
    (hf : ∀ a, (f a).id = a.id) :
    (l.map f).map (fun a => a.id) = l.map (fun a => a.id) := by
  rw [List.map_map]
  exact List.map_congr_left (fun a _ => hf a)

theorem mem_mapSet {l : List ActiveSound} {x a : ActiveSound} (h : a ∈ mapSet l x) :
    a ∈ l ∨ a = x := by
  unfold mapSet at h
  split at h
  · obtain ⟨b, hb, hba⟩ := List.mem_map.mp h
    by_cases he : b.id = x.id
    · rw [if_pos he] at hba
      exact Or.inr hba.symm
    · rw [if_neg he] at hba
      exact Or.inl (hba ▸ hb)
  · cases List.mem_append.mp h with
    | inl hl => exact Or.inl hl
    | inr hr => exact Or.inr (by simpa using hr)

theorem notMem_ids_of_absent {l : List ActiveSound} {i : String}
    (h : mapGet l i = none) : i ∉ l.map (fun a => a.id) := by
  intro hmem
  obtain ⟨a, ha, hai⟩ := List.mem_map.mp hmem
  exact (mapGet_eq_none.mp h a ha) hai

/-! ### Preservation of the structural invariant -/

theorem invW_congr {st st' : SoundManager}
    (h : st'.activeSounds = st.activeSounds) (hw : InvW st) : InvW st' := by
  unfold InvW at hw ⊢
  rw [h]
  exact hw

theorem invW_stopImmediate (st : SoundManager) (i : String) (hw : InvW st) :
    InvW (stopImmediate st i) := by
  obtain ⟨h1, h2, h3⟩ := hw
  have hsub : (mapDelete st.activeSounds i).Sublist st.activeSounds :=
    List.filter_sublist _
  refine ⟨?_, ?_, ?_⟩
  · intro a ha
    exact h1 a (hsub.mem ha)
  · exact List.Nodup.sublist (hsub.map _) h2
  · exact le_trans (hsub.countP_le bgmLive) h3

theorem bgmLive_markOut (i : String) (b : ActiveSound) :
    bgmLive (markOut i b) = true → bgmLive b = true := by
  unfold markOut
  by_cases h : b.id = i
  · rw [if_pos h]
    unfold bgmLive
    simp
  · rw [if_neg h]
    exact id

theorem invW_stopSound (s : Sound) (st : SoundManager) (hw : InvW st) :
    InvW (stopSound s st) := by
  by_cases hs : s.type = "One-shots"
  · cases hg : mapGet st.activeSounds s.id with
    | none => rwa [stopSound_absent hg]
    | some a =>
        rw [stopSound_oneshot hg hs]
        exact invW_stopImmediate st s.id hw
  · rw [stopSound_streamed st hs]
    obtain ⟨h1, h2, h3⟩ := hw
    refine ⟨?_, ?_, ?_⟩
    · intro a ha
      obtain ⟨b, hb, hba⟩ := List.mem_map.mp ha
      rw [← hba, markOut_id, markOut_sound]
      exact h1 b hb
    · rw [ids_map_of_id _ _ (markOut_id s.id)]
      exact h2
    · rw [List.countP_map]
      exact le_trans (List.countP_mono_left
        (fun b _ hb => bgmLive_markOut s.id b hb)) h3

theorem invW_tick (st : SoundManager) (hw : InvW st) : InvW (tick st) := by
  obtain ⟨h1, h2, h3⟩ := hw
  refine ⟨?_, ?_, ?_⟩
  · intro b hb
    obtain ⟨a, ha, hab⟩ := List.mem_filterMap.mp hb
    rw [tickOne_id hab, tickOne_sound hab]
    exact h1 a ha
  · exact List.Nodup.sublist
      (ids_sublist_filterMap _ (fun a b h => tickOne_id h) st.activeSounds) h2
  · refine le_trans (countP_filterMap_le _ _ _ ?_) h3
    intro a b hab hb
    unfold bgmLive at hb ⊢
    rw [tickOne_sound hab] at hb
    simp only [Bool.and_eq_true, decide_eq_true_eq] at hb ⊢
    refine ⟨hb.1, ?_⟩
    intro hout
    have := (tickOne_fadingOut hout hab).1
    exact hb.2 this

theorem invW_setMaster (v : ℚ) (st : SoundManager) (hw : InvW st) :
    InvW (setMasterBGMVolume v st) := by
  obtain ⟨h1, h2, h3⟩ := hw
  have hid : ∀ a : ActiveSound,
      ((fun a => if a.sound.type = "Background Music" then updateVolume v a else a) a).id
        = a.id := by
    intro a
    by_cases h : a.sound.type = "Background Music" <;> simp [h, updateVolume_id]
  refine ⟨?_, ?_, ?_⟩
  · intro b hb
    obtain ⟨a, ha, hab⟩ := List.mem_map.mp hb
    rw [← hab]
    by_cases h : a.sound.type = "Background Music"
    · simp only [if_pos h, updateVolume_id, updateVolume_sound]
      exact h1 a ha
    · simp only [if_neg h]
      exact h1 a ha
  · show ((st.activeSounds.map (fun a =>
        if a.sound.type = "Background Music" then updateVolume v a else a)).map
          (fun a => a.id)).Nodup
    rw [ids_map_of_id _ _ hid]
    exact h2
  · show (st.activeSounds.map (fun a =>
        if a.sound.type = "Background Music" then updateVolume v a else a)).countP
          bgmLive ≤ 1
    rw [List.countP_map]
    refine le_trans (le_of_eq (List.countP_congr ?_)) h3
    intro a _
    simp only [Function.comp]
    by_cases h : a.sound.type = "Background Music"
    · rw [if_pos h]
      unfold bgmLive
      rw [updateVolume_sound, updateVolume_fade]
    · rw [if_neg h]

theorem invW_stopAll (st : SoundManager) (_hw : InvW st) : InvW (stopAllSounds st) := by
  have hreg : (stopAllSounds st).activeSounds = [] := by
    unfold stopAllSounds
    exact stopAll_registry_aux st.activeSounds st (fun b hb => ⟨b, hb, rfl⟩)
  refine ⟨?_, ?_, ?_⟩ <;> rw [hreg] <;> simp

theorem invW_ended (st : SoundManager) (i : String) (hw : InvW st) :
    InvW (sfxEnded st i) := by
  cases hg : mapGet st.activeSounds i with
  | none =>
      simp only [sfxEnded, hg]
      exact hw
  | some a =>
      by_cases hstr : a.streamed
      · simp only [sfxEnded, hg, hstr, if_true]
        exact hw
      · simp only [sfxEnded, hg, hstr, if_false]
        exact invW_stopImmediate st i hw

theorem bgmLive_new_streamed (s : Sound) :
    bgmLive { id := s.id, sound := s, gainTarget := 0, streamed := true
              volumeMultiplier := 0, fade := FadeState.fadingIn }
      = decide (s.type = "Background Music") := by
  unfold bgmLive
  simp

theorem invW_playSfxInternal (s : Sound) (st : SoundManager)
    (hs : s.type ≠ "Background Music") (hw : InvW st) : InvW (playSfxInternal s st) := by
  obtain ⟨h1, h2, h3⟩ := hw
  unfold playSfxInternal
  refine ⟨?_, ?_, ?_⟩
  · intro a ha
    simp only at ha
    cases mem_mapSet ha with
    | inl hl => exact h1 a hl
    | inr hr => rw [hr]
  · show ((mapSet st.activeSounds
        { id := s.id, sound := s, gainTarget := s.volume, streamed := false
          volumeMultiplier := 1, fade := FadeState.idle }).map (fun a => a.id)).Nodup
    cases hg : mapGet st.activeSounds s.id with
    | none =>
        rw [mapSet_of_absent hg]
        rw [List.map_append]
        rw [List.nodup_append]
        refine ⟨h2, by simp, ?_⟩
        intro x hx hx'
        simp only [List.map_cons, List.map_nil, List.mem_cons, List.not_mem_nil,
          or_false] at hx'
        rw [hx'] at hx
        exact notMem_ids_of_absent hg hx
    | some b =>
        rw [mapSet_of_present (by rw [hg]; rfl)]
        rw [ids_map_of_id]
        · exact h2
        · intro a
          by_cases h : a.id = s.id <;> simp [h]
  · show (mapSet st.activeSounds
        { id := s.id, sound := s, gainTarget := s.volume, streamed := false
          volumeMultiplier := 1, fade := FadeState.idle }).countP bgmLive ≤ 1
    refine le_trans (countP_mapSet_le _ _ _ ?_) h3
    unfold bgmLive
    simp [hs]

theorem invW_playSound (s : Sound) (f : Bool) (st : SoundManager) (hw : InvW st) :
    InvW (playSound s f st) := by
  unfold playSound
  by_cases h1 : s.type = "Background Music"
  · rw [if_pos h1]
    unfold playBGM
    by_cases hg : (mapGet st.activeSounds s.id).isSome
    · rw [if_pos hg]
      exact hw
    · rw [if_neg hg]
      have habs : mapGet st.activeSounds s.id = none := by
        cases he : mapGet st.activeSounds s.id with
        | none => rfl
        | some a => rw [he] at hg; exact absurd rfl hg
      have hfilter : ∀ a ∈ st.activeSounds.filter
          (fun a => decide (a.sound.type = "Background Music")),
          a.sound.type ≠ "One-shots" := by
        intro a ha
        have := (List.mem_filter.mp ha).2
        simp only [decide_eq_true_eq] at this
        rw [this]
        intro hcon
        exact absurd hcon (by decide)
      show InvW (startStreamedSound s true
        ((st.activeSounds.filter
          (fun a => decide (a.sound.type = "Background Music"))).foldl
            (fun acc a => stopSound a.sound acc) st))
      rw [foldl_stopSound _ st hfilter]
      set G := fun b => (st.activeSounds.filter
        (fun a => decide (a.sound.type = "Background Music"))).foldl
          (fun c a => markOut a.sound.id c) b with hG
      have hGid : ∀ b, (G b).id = b.id := by
        intro b
        rw [hG]
        simp only [foldl_markOut]
        split <;> rfl
      have hGsound : ∀ b, (G b).sound = b.sound := by
        intro b
        rw [hG]
        simp only [foldl_markOut]
        split <;> rfl
      obtain ⟨w1, w2, w3⟩ := hw
      have hGout : ∀ b ∈ st.activeSounds, b.sound.type = "Background Music" →
          (G b).fade = FadeState.fadingOut := by
        intro b hb hbt
        rw [hG]
        simp only [foldl_markOut]
        rw [if_pos]
        rw [List.any_eq_true]
        refine ⟨b, List.mem_filter.mpr ⟨hb, by simp [hbt]⟩, ?_⟩
        simp [(w1 b hb).symm]
      have hcount0 : (st.activeSounds.map G).countP bgmLive = 0 := by
        rw [List.countP_map]
        rw [List.countP_eq_zero]
        intro b hb
        simp only [Function.comp]
        unfold bgmLive
        by_cases hbt : b.sound.type = "Background Music"
        · simp [hGout b hb hbt]
        · simp [hGsound, hbt]
      have hwmid : InvW { st with activeSounds := st.activeSounds.map G } := by
        refine ⟨?_, ?_, ?_⟩
        · intro b hb
          obtain ⟨a, ha, hab⟩ := List.mem_map.mp hb
          rw [← hab, hGid, hGsound]
          exact w1 a ha
        · show ((st.activeSounds.map G).map (fun a => a.id)).Nodup
          rw [ids_map_of_id _ _ hGid]
          exact w2
        · rw [hcount0]
          exact Nat.zero_le 1
      cases hurl : s.publicURL with
      | none =>
          simp only [startStreamedSound, hurl]
          exact hwmid
      | some u =>
          simp only [startStreamedSound, hurl]
          obtain ⟨m1, m2, m3⟩ := hwmid
          have habs' : mapGet (st.activeSounds.map G) s.id = none := by
            rw [mapGet_map_of_id _ _ hGid, habs]
            rfl
          refine ⟨?_, ?_, ?_⟩
          · intro a ha
            simp only at ha
            cases mem_mapSet ha with
            | inl hl => exact m1 a hl
            | inr hr => rw [hr]
          · show ((mapSet (st.activeSounds.map G)
                { id := s.id, sound := s, gainTarget := 0, streamed := true
                  volumeMultiplier := 0, fade := FadeState.fadingIn }).map
                    (fun a => a.id)).Nodup
            rw [mapSet_of_absent habs', List.map_append, List.nodup_append]
            refine ⟨m2, by simp, ?_⟩
            intro x hx hx'
            simp only [List.map_cons, List.map_nil, List.mem_cons, List.not_mem_nil,
              or_false] at hx'
            rw [hx'] at hx
            exact notMem_ids_of_absent habs' hx
          · show (mapSet (st.activeSounds.map G)
                { id := s.id, sound := s, gainTarget := 0, streamed := true
                  volumeMultiplier := 0, fade := FadeState.fadingIn }).countP bgmLive ≤ 1
            rw [mapSet_of_absent habs', List.countP_append, hcount0]
            simp only [List.countP_cons, List.countP_nil, Nat.zero_add]
            split <;> simp
  · rw [if_neg h1]
    by_cases h2 : s.type = "Ambience"
    · rw [if_pos h2]
      unfold playAmbience
      by_cases hg : (mapGet st.activeSounds s.id).isSome
      · rw [if_pos hg]
        exact hw
      · rw [if_neg hg]
        have habs : mapGet st.activeSounds s.id = none := by
          cases he : mapGet st.activeSounds s.id with
          | none => rfl
          | some a => rw [he] at hg; exact absurd rfl hg
        cases hurl : s.publicURL with
        | none =>
            simp only [startStreamedSound, hurl]
            exact hw
        | some u =>
            simp only [startStreamedSound, hurl]
            obtain ⟨w1, w2, w3⟩ := hw
            refine ⟨?_, ?_, ?_⟩
            · intro a ha
              simp only at ha
              cases mem_mapSet ha with
              | inl hl => exact w1 a hl
              | inr hr => rw [hr]
            · show ((mapSet st.activeSounds
                  { id := s.id, sound := s, gainTarget := 0, streamed := true
                    volumeMultiplier := 0, fade := FadeState.fadingIn }).map
                      (fun a => a.id)).Nodup
              rw [mapSet_of_absent habs, List.map_append, List.nodup_append]
              refine ⟨w2, by simp, ?_⟩
              intro x hx hx'
              simp only [List.map_cons, List.map_nil, List.mem_cons, List.not_mem_nil,
                or_false] at hx'
              rw [hx'] at hx
              exact notMem_ids_of_absent habs hx
            · show (mapSet st.activeSounds
                  { id := s.id, sound := s, gainTarget := 0, streamed := true
                    volumeMultiplier := 0, fade := FadeState.fadingIn }).countP bgmLive ≤ 1
              refine le_trans (countP_mapSet_le _ _ _ ?_) w3
              rw [bgmLive_new_streamed]
              simp [h1]
    · rw [if_neg h2]
      by_cases h3 : s.type = "One-shots"
      · rw [if_pos h3]
        unfold playSoundEffect
        by_cases hbuf : s.id ∈ st.sfxBuffers
        · rw [if_pos hbuf]
          by_cases hg : (mapGet st.activeSounds s.id).isSome
          · rw [if_pos hg]
            exact invW_playSfxInternal s _ h1 (invW_stopImmediate st s.id hw)
          · rw [if_neg hg]
            exact invW_playSfxInternal s _ h1 hw
        · rw [if_neg hbuf]
          have hwl : InvW (loadSound s f st) :=
            invW_congr (loadSound_activeSounds s f st) hw
          by_cases hbuf' : s.id ∈ (loadSound s f st).sfxBuffers
          · rw [if_pos hbuf']
            exact invW_playSfxInternal s _ h1 hwl
          · rw [if_neg hbuf']
            exact hwl
      · rw [if_neg h3]
        exact hw

theorem invW_loadSound (s : Sound) (f : Bool) (st : SoundManager) (hw : InvW st) :
    InvW (loadSound s f st) :=
  invW_congr (loadSound_activeSounds s f st) hw

theorem step_invW {lib : List Sound} {st st' : SoundManager}
    (h : Step lib st st') (hw : InvW st) : InvW st' := by
  cases h with
  | play s f hs => exact invW_playSound s f st hw
  | stop s hs => exact invW_stopSound s st hw
  | load s f hs => exact invW_loadSound s f st hw
  | stopAll => exact invW_stopAll st hw
  | setMaster v => exact invW_setMaster v st hw
  | timer => exact invW_tick st hw
  | ended i => exact invW_ended st i hw

theorem reach_invW {lib : List Sound} {st : SoundManager} (h : Reach lib st) : InvW st := by
  induction h with
  | init => exact ⟨by simp [initialState], by simp [initialState], by simp [initialState]⟩
  | step st st' _ hstep ih => exact step_invW hstep ih

/-! ### Preservation of the library-relative invariant -/

theorem invT_congr {lib : List Sound} {st st' : SoundManager}
    (h : st'.activeSounds = st.activeSounds) (ht : InvT lib st) : InvT lib st' := by
  unfold InvT at ht ⊢
  rw [h]
  exact ht

theorem invT_of_sublist {lib : List Sound} {st st' : SoundManager}
    (h : st'.activeSounds.Sublist st.activeSounds) (ht : InvT lib st) : InvT lib st' :=
  fun a ha => ht a (h.mem ha)

theorem invT_stopImmediate {lib : List Sound} (st : SoundManager) (i : String)
    (ht : InvT lib st) : InvT lib (stopImmediate st i) :=
  invT_of_sublist (List.filter_sublist _) ht

theorem invT_stopSound {lib : List Sound} {s : Sound} (st : SoundManager)
    (hLW : LibWF lib) (hs : s ∈ lib)
    (hw1 : ∀ a ∈ st.activeSounds, a.id = a.sound.id) (ht : InvT lib st) :
    InvT lib (stopSound s st) := by
  by_cases hos : s.type = "One-shots"
  · cases hg : mapGet st.activeSounds s.id with
    | none => rwa [stopSound_absent hg]
    | some a =>
        rw [stopSound_oneshot hg hos]
        exact invT_stopImmediate st s.id ht
  · rw [stopSound_streamed st hos]
    intro b' hb'
    obtain ⟨b, hb, hbb⟩ := List.mem_map.mp hb'
    obtain ⟨hblib, hbout⟩ := ht b hb
    rw [← hbb, markOut_sound]
    refine ⟨hblib, ?_⟩
    intro hfade
    unfold markOut at hfade
    by_cases he : b.id = s.id
    · have hsnd : b.sound = s := by
        apply hLW b.sound hblib s hs
        rw [← hw1 b hb, he]
      rw [hsnd]
      exact hos
    · rw [if_neg he] at hfade
      exact hbout hfade

theorem invT_tick {lib : List Sound} (st : SoundManager) (ht : InvT lib st) :
    InvT lib (tick st) := by
  intro b hb
  obtain ⟨a, ha, hab⟩ := List.mem_filterMap.mp hb
  obtain ⟨halib, haout⟩ := ht a ha
  rw [tickOne_sound hab]
  refine ⟨halib, ?_⟩
  intro hfade
  apply haout
  by_contra hcon
  exact tickOne_not_fadingOut hcon hab hfade

theorem invT_setMaster {lib : List Sound} (v : ℚ) (st : SoundManager) (ht : InvT lib st) :
    InvT lib (setMasterBGMVolume v st) := by
  intro b hb
  obtain ⟨a, ha, hab⟩ := List.mem_map.mp hb
  obtain ⟨halib, haout⟩ := ht a ha
  rw [← hab]
  by_cases h : a.sound.type = "Background Music"
  · rw [if_pos h, updateVolume_sound, updateVolume_fade]
    exact ⟨halib, haout⟩
  · rw [if_neg h]
    exact ⟨halib, haout⟩

theorem invT_stopAll {lib : List Sound} (st : SoundManager) (_ht : InvT lib st) :
    InvT lib (stopAllSounds st) := by
  intro b hb
  rw [show (stopAllSounds st).activeSounds = [] from
    stopAll_registry_aux st.activeSounds st (fun b hb => ⟨b, hb, rfl⟩)] at hb
  exact absurd hb (List.not_mem_nil b)

theorem invT_ended {lib : List Sound} (st : SoundManager) (i : String) (ht : InvT lib st) :
    InvT lib (sfxEnded st i) := by
  cases hg : mapGet st.activeSounds i with
  | none =>
      simp only [sfxEnded, hg]
      exact ht
  | some a =>
      by_cases hstr : a.streamed
      · simp only [sfxEnded, hg, hstr, if_true]
        exact ht
      · simp only [sfxEnded, hg, hstr, if_false]
        exact invT_stopImmediate st i ht

theorem invT_playSfxInternal {lib : List Sound} {s : Sound} (st : SoundManager)
    (hs : s ∈ lib) (ht : InvT lib st) : InvT lib (playSfxInternal s st) := by
  intro b hb
  unfold playSfxInternal at hb
  simp only at hb
  cases mem_mapSet hb with
  | inl hl => exact ht b hl
  | inr hr =>
      rw [hr]
      refine ⟨hs, ?_⟩
      intro hcon
      simp at hcon

theorem invT_playSound {lib : List Sound} {s : Sound} (f : Bool) (st : SoundManager)
    (hLW : LibWF lib) (hs : s ∈ lib)
    (hw1 : ∀ a ∈ st.activeSounds, a.id = a.sound.id) (ht : InvT lib st) :
    InvT lib (playSound s f st) := by
  unfold playSound
  by_cases h1 : s.type = "Background Music"
  · rw [if_pos h1]
    unfold playBGM
    by_cases hg : (mapGet st.activeSounds s.id).isSome
    · rw [if_pos hg]
      exact ht
    · rw [if_neg hg]
      have hfilter : ∀ a ∈ st.activeSounds.filter
          (fun a => decide (a.sound.type = "Background Music")),
          a.sound.type ≠ "One-shots" := by
        intro a ha
        have := (List.mem_filter.mp ha).2
        simp only [decide_eq_true_eq] at this
        rw [this]
        intro hcon
        exact absurd hcon (by decide)
      show InvT lib (startStreamedSound s true
        ((st.activeSounds.filter
          (fun a => decide (a.sound.type = "Background Music"))).foldl
            (fun acc a => stopSound a.sound acc) st))
      rw [foldl_stopSound _ st hfilter]
      have htmid : InvT lib { st with activeSounds := st.activeSounds.map (fun b =>
          (st.activeSounds.filter
            (fun a => decide (a.sound.type = "Background Music"))).foldl
              (fun c a => markOut a.sound.id c) b) } := by
        intro b' hb'
        obtain ⟨b, hb, hbb⟩ := List.mem_map.mp hb'
        obtain ⟨hblib, hbout⟩ := ht b hb
        rw [← hbb, foldl_markOut]
        by_cases hany : (st.activeSounds.filter
            (fun a => decide (a.sound.type = "Background Music"))).any
              (fun a => decide (a.sound.id = b.id)) = true
        · rw [if_pos hany]
          refine ⟨hblib, ?_⟩
          intro _
          obtain ⟨a, ha, haid⟩ := List.any_eq_true.mp hany
          have ha' := List.mem_filter.mp ha
          have hat : a.sound.type = "Background Music" := by
            have := ha'.2
            simpa using this
          have haid' : a.sound.id = b.id := by simpa using haid
          have hsnd : b.sound = a.sound := by
            apply hLW b.sound hblib a.sound (ht a ha'.1).1
            rw [← hw1 b hb, haid']
          rw [hsnd, hat]
          intro hcon
          exact absurd hcon (by decide)
        · rw [if_neg hany]
          exact ⟨hblib, hbout⟩
      cases hurl : s.publicURL with
      | none =>
          simp only [startStreamedSound, hurl]
          exact htmid
      | some u =>
          simp only [startStreamedSound, hurl]
          intro b hb
          simp only at hb
          cases mem_mapSet hb with
          | inl hl => exact htmid b hl
          | inr hr =>
              rw [hr]
              refine ⟨hs, ?_⟩
              intro hcon
              simp at hcon
  · rw [if_neg h1]
    by_cases h2 : s.type = "Ambience"
    · rw [if_pos h2]
      unfold playAmbience
      by_cases hg : (mapGet st.activeSounds s.id).isSome
      · rw [if_pos hg]
        exact ht
      · rw [if_neg hg]
        cases hurl : s.publicURL with
        | none =>
            simp only [startStreamedSound, hurl]
            exact ht
        | some u =>
            simp only [startStreamedSound, hurl]
            intro b hb
            simp only at hb
            cases mem_mapSet hb with
            | inl hl => exact ht b hl
            | inr hr =>
                rw [hr]
                refine ⟨hs, ?_⟩
                intro hcon
                simp at hcon
    · rw [if_neg h2]
      by_cases h3 : s.type = "One-shots"
      · rw [if_pos h3]
        unfold playSoundEffect
        by_cases hbuf : s.id ∈ st.sfxBuffers
        · rw [if_pos hbuf]
          by_cases hg : (mapGet st.activeSounds s.id).isSome
          · rw [if_pos hg]
            exact invT_playSfxInternal _ hs (invT_stopImmediate st s.id ht)
          · rw [if_neg hg]
            exact invT_playSfxInternal _ hs ht
        · rw [if_neg hbuf]
          have htl : InvT lib (loadSound s f st) :=
            invT_congr (loadSound_activeSounds s f st) ht
          by_cases hbuf' : s.id ∈ (loadSound s f st).sfxBuffers
          · rw [if_pos hbuf']
            exact invT_playSfxInternal _ hs htl
          · rw [if_neg hbuf']
            exact htl
      · rw [if_neg h3]
        exact ht

theorem step_invT {lib : List Sound} {st st' : SoundManager} (hLW : LibWF lib)
    (h : Step lib st st') (hw : InvW st) (ht : InvT lib st) : InvT lib st' := by
  cases h with
  | play s f hs => exact invT_playSound f st hLW hs hw.1 ht
  | stop s hs => exact invT_stopSound st hLW hs hw.1 ht
  | load s f hs => exact invT_congr (loadSound_activeSounds s f st) ht
  | stopAll => exact invT_stopAll st ht
  | setMaster v => exact invT_setMaster v st ht
  | timer => exact invT_tick st ht
  | ended i => exact invT_ended st i ht

theorem reach_invT {lib : List Sound} {st : SoundManager} (hLW : LibWF lib)
    (h : Reach lib st) : InvT lib st := by
  induction h with
  | init =>
      intro a ha
      exact absurd ha (by simp [initialState])
  | step st st' hr hstep ih => exact step_invT hLW hstep (reach_invW hr) ih

theorem reach_tick_iter {lib : List Sound} {st : SoundManager} (h : Reach lib st) (n : ℕ) :
    Reach lib (Nat.iterate tick n st) := by
  induction n with
  | zero => exact h
  | succ n ih =>
      rw [Function.iterate_succ_apply']
      exact Reach.step _ _ ih (Step.timer _)

theorem tickOne_out (v : ℚ) (a : ActiveSound) (hf : a.fade = FadeState.fadingOut) :
    tickOne v a = if a.volumeMultiplier - fadeStep ≤ 0 then none
      else some (updateVolume v { a with volumeMultiplier := a.volumeMultiplier - fadeStep }) := by
  unfold tickOne
  rw [hf]

theorem playSoundEffect_mapGet_ne (s : Sound) (f : Bool) (st : SoundManager) (i : String)
    (hins : ¬ i = s.id) :
    mapGet (playSoundEffect s f st).activeSounds i = mapGet st.activeSounds i := by
  have hnew : ({ id := s.id, sound := s, gainTarget := s.volume, streamed := false,
                 volumeMultiplier := 1, fade := FadeState.idle } : ActiveSound).id
      = s.id := rfl
  unfold playSoundEffect
  by_cases hbuf : s.id ∈ st.sfxBuffers
  · rw [if_pos hbuf]
    by_cases hg : (mapGet st.activeSounds s.id).isSome
    · rw [if_pos hg]
      show mapGet (mapSet (stopImmediate st s.id).activeSounds _) i = _
      rw [mapGet_mapSet, hnew, if_neg (fun he => hins he.symm)]
      show mapGet (mapDelete st.activeSounds s.id) i = _
      rw [mapGet_mapDelete, if_neg (fun he => hins he.symm)]
    · rw [if_neg hg]
      show mapGet (mapSet st.activeSounds _) i = _
      rw [mapGet_mapSet, hnew, if_neg (fun he => hins he.symm)]
  · rw [if_neg hbuf]
    by_cases hbuf' : s.id ∈ (loadSound s f st).sfxBuffers
    · rw [if_pos hbuf']
      show mapGet (mapSet (loadSound s f st).activeSounds _) i = _
      rw [mapGet_mapSet, hnew, if_neg (fun he => hins he.symm),
          loadSound_activeSounds]
    · rw [if_neg hbuf']
      rw [loadSound_activeSounds]

theorem fadeStep_eq_div : fadeStep = 50 / 2500 := by
  norm_num [fadeStep, Rat.mkRat_eq_div]

theorem initialState_master_eq_div : initialState.masterBGMVolume = 1 / 2 := by
  norm_num [initialState, Rat.mkRat_eq_div]

/-! ### Claim C10 -/

/-- C10: for every `Sound` whose `type` field equals `'Sound Effect'` — the
only effect-category value of the declared `SoundType` union — `playSound`
performs no action (no dispatch case matches, the state, and in particular
the Active-Sound Registry, is unchanged) and `loadSound` caches nothing,
because the engine's effect-category dispatch compares `type` against
`'One-shots'`, which is not a value of `SoundType`; for well-typed `Sound`
values the one-shot code paths are unreachable. -/
theorem c10_sound_effect_unreachable (s : Sound) (f : Bool) (st : SoundManager)
    (hs : s.type = "Sound Effect") :
    DeclaredSoundType s.type
  ∧ ¬ DeclaredSoundType "One-shots"
  ∧ playSound s f st = st
  ∧ loadSound s f st = st := by
  refine ⟨by rw [hs]; decide, by decide, ?_, ?_⟩
  · unfold playSound
    rw [if_neg (by rw [hs]; decide), if_neg (by rw [hs]; decide),
        if_neg (by rw [hs]; decide)]
  · unfold loadSound
    rw [if_neg (by rw [hs]; decide)]

theorem c10_sound_effect_unreachable_witness :
    fxZ.type = "Sound Effect" ∧ playSound fxZ true initialState = initialState :=
  ⟨by decide, (c10_sound_effect_unreachable fxZ true initialState (by decide)).2.2.1⟩

/-! ### Claim C2 -/

/-- C2 counterexample: the engine's `playBGM` returns immediately when the
identifier is already registered, so replaying the active music track
leaves the whole engine state exactly unchanged — it does not toggle
pause/resume (the engine has no per-sound pause at all; only the global
`toggleGlobalPlayPause` suspends playback). -/
theorem c2_counterexample :
    playSound musicA true (playSound musicA true initialState)
      = playSound musicA true initialState
  ∧ isPlaying (playSound musicA true (playSound musicA true initialState)) musicA.id
      = true := by
  decide

/-- C2 amended: for every Background-Music sound whose identifier is
already registered (the active music track), calling `playSound` on that
same sound is a no-op — it returns with the engine state entirely
unchanged, neither toggling pause/resume nor starting a duplicate.
(Tap-to-toggle is implemented by the UI layer, which calls `stopSound`
when the tile is already playing.) -/
theorem c2_amended_replay_active_music_noop (s : Sound) (f : Bool) (st : SoundManager)
    (hs : s.type = "Background Music") (h : (mapGet st.activeSounds s.id).isSome) :
    playSound s f st = st := by
  unfold playSound
  rw [if_pos hs]
  unfold playBGM
  rw [if_pos h]

theorem c2_amended_replay_active_music_noop_witness :
    (mapGet stPlayA.activeSounds musicA.id).isSome = true
  ∧ playSound musicA true stPlayA = stPlayA :=
  ⟨by decide,
   c2_amended_replay_active_music_noop musicA true stPlayA (by decide) (by decide)⟩

/-! ### Claim C3 -/

/-- C3 counterexample: `playAmbience` returns immediately when the
identifier is already registered, so `play(ambienceX)` twice with no
intervening `stop` leaves ambienceX playing (the state is unchanged by the
second call), not stopped as the claim's tap-to-stop semantics require. -/
theorem c3_counterexample :
    isPlaying (playSound ambX true (playSound ambX true initialState)) ambX.id = true
  ∧ playSound ambX true (playSound ambX true initialState)
      = playSound ambX true initialState := by
  decide

/-- C3 amended: for every Ambience sound whose identifier is already
active, calling `playSound` on it is a no-op (the track keeps playing;
stopping a specific track is done through `stopSound`, which the UI calls
on a tap of a playing tile). When the identifier is not active and the
sound has a URL, `playSound` registers it fading in, without affecting any
other registered track. -/
theorem c3_amended_ambience_play (s : Sound) (f : Bool) (st : SoundManager)
    (hs : s.type = "Ambience") :
    ((mapGet st.activeSounds s.id).isSome → playSound s f st = st)
  ∧ (mapGet st.activeSounds s.id = none → s.publicURL.isSome →
      isPlaying (playSound s f st) s.id = true
      ∧ ∀ j, j ≠ s.id →
          mapGet (playSound s f st).activeSounds j = mapGet st.activeSounds j) := by
  constructor
  · intro h
    unfold playSound
    rw [if_neg (by rw [hs]; decide), if_pos hs]
    unfold playAmbience
    rw [if_pos h]
  · intro habs hurl
    obtain ⟨u, hu⟩ := Option.isSome_iff_exists.mp hurl
    have hplay : playSound s f st = { st with activeSounds := (mapSet st.activeSounds
        { id := s.id, sound := s, gainTarget := 0, streamed := true
          volumeMultiplier := 0, fade := FadeState.fadingIn }) } := by
      unfold playSound
      rw [if_neg (by rw [hs]; decide), if_pos hs]
      unfold playAmbience
      rw [if_neg (by rw [habs]; decide)]
      simp only [startStreamedSound, hu]
    rw [hplay]
    have hid : ({ id := s.id, sound := s, gainTarget := 0, streamed := true,
                  volumeMultiplier := 0, fade := FadeState.fadingIn } : ActiveSound).id
        = s.id := rfl
    constructor
    · unfold isPlaying
      show (mapGet (mapSet st.activeSounds _) s.id).isSome = true
      rw [mapGet_mapSet, hid, if_pos rfl]
      rfl
    · intro j hj
      show mapGet (mapSet st.activeSounds _) j = mapGet st.activeSounds j
      rw [mapGet_mapSet, hid, if_neg (fun he => hj he.symm)]

theorem c3_amended_ambience_play_witness :
    (mapGet stPlayX.activeSounds ambX.id).isSome = true
  ∧ playSound ambX true stPlayX = stPlayX :=
  ⟨by decide, (c3_amended_ambience_play ambX true stPlayX (by decide)).1 (by decide)⟩

/-! ### Claim C4 -/

/-- C4 counterexample: with the one-shot `shotY` cached and active,
calling `playSound` on it again starts a second playback (the ghost log
records two starts and the identifier is again active), instead of
stopping the active instance and returning as the claim states. -/
theorem c4_counterexample :
    (playSound shotY true (playSound shotY true initialState)).sfxStarts = ["y", "y"]
  ∧ isPlaying (playSound shotY true (playSound shotY true initialState)) shotY.id
      = true := by
  decide

/-- C4 amended: for every one-shot sound whose buffer is cached and whose
identifier is currently active, calling `playSound` stops the active
instance immediately and starts a fresh instance of the same clip —
restart semantics, so no two instances of the identical clip overlap, but
a new playback does start rather than the call acting as a pure stop
toggle. (The source comments this choice: restarting the same SFX stops
the previous one.) -/
theorem c4_amended_oneshot_restart (s : Sound) (f : Bool) (st : SoundManager)
    (hs : s.type = "One-shots") (hbuf : s.id ∈ st.sfxBuffers)
    (hact : (mapGet st.activeSounds s.id).isSome) :
    playSound s f st = playSfxInternal s (stopImmediate st s.id)
  ∧ (playSound s f st).sfxStarts = st.sfxStarts ++ [s.id]
  ∧ mapGet (playSound s f st).activeSounds s.id
      = some { id := s.id, sound := s, gainTarget := s.volume, streamed := false
               volumeMultiplier := 1, fade := FadeState.idle } := by
  have hplay : playSound s f st = playSfxInternal s (stopImmediate st s.id) := by
    unfold playSound
    rw [if_neg (by rw [hs]; decide), if_neg (by rw [hs]; decide), if_pos hs]
    unfold playSoundEffect
    rw [if_pos hbuf, if_pos hact]
  refine ⟨hplay, ?_, ?_⟩
  · rw [hplay]
    rfl
  · rw [hplay]
    show mapGet (mapSet (stopImmediate st s.id).activeSounds _) s.id = _
    rw [mapGet_mapSet]
    rw [if_pos rfl]

theorem c4_amended_oneshot_restart_witness :
    shotY.id ∈ stPlayY.sfxBuffers
  ∧ (playSound shotY true stPlayY).sfxStarts = stPlayY.sfxStarts ++ [shotY.id] :=
  ⟨by decide,
   (c4_amended_oneshot_restart shotY true stPlayY (by decide) (by decide) (by decide)).2.1⟩

/-! ### Claim C5 -/

/-- C5 counterexample: `stopAllSounds` does not fade out streamed sounds.
With `musicA` active, `stopAllSounds` empties the registry at once,
whereas the fade-out teardown path (the one `stopSound` takes for music)
keeps the entry registered, marked fading out, until the fade completes —
so `stopAllSounds` removes the music instance without fading it. -/
theorem c5_counterexample :
    isPlaying stPlayA musicA.id = true
  ∧ (stopAllSounds stPlayA).activeSounds = []
  ∧ (stopSound musicA stPlayA).activeSounds ≠ [] := by
  refine ⟨by decide, by decide, by decide⟩

/-- C5 amended: for every engine state, `stopAllSounds` immediately halts
every active instance — Background Music and Ambience included, with no
fade-out, exactly as one-shots — and leaves the Active-Sound Registry
empty; the buffer cache, the master volume and the playback log are
untouched. -/
theorem c5_amended_stopall_immediate (st : SoundManager) :
    (stopAllSounds st).activeSounds = []
  ∧ (stopAllSounds st).sfxBuffers = st.sfxBuffers
  ∧ (stopAllSounds st).masterBGMVolume = st.masterBGMVolume
  ∧ (stopAllSounds st).sfxStarts = st.sfxStarts := by
  refine ⟨stopAll_registry_aux st.activeSounds st (fun b hb => ⟨b, hb, rfl⟩), ?_, ?_, ?_⟩
  · exact (foldl_stopImmediate_fields st.activeSounds st).1
  · exact (foldl_stopImmediate_fields st.activeSounds st).2.1
  · exact (foldl_stopImmediate_fields st.activeSounds st).2.2

/-! ### Claim C9 -/

/-- C9: for every one-shot sound not yet cached (with a URL), `playSound`
loads and decodes it on demand and, once the decode completes
successfully, results in exactly one playback — the playback log grows by
exactly one entry and the new instance is registered. If the fetch/decode
fails, the call returns the state unchanged: no exception propagates (the
embedding is a total function and the source wraps the fetch in
try/catch), the cache entry is left absent, and a subsequent play attempt
retries the load transparently and then plays exactly once. -/
theorem c9_retry_on_unloaded (s : Sound) (st : SoundManager)
    (hs : s.type = "One-shots") (hnc : s.id ∉ st.sfxBuffers) (hu : s.publicURL.isSome) :
    (playSound s true st).sfxStarts = st.sfxStarts ++ [s.id]
  ∧ s.id ∈ (playSound s true st).sfxBuffers
  ∧ mapGet (playSound s true st).activeSounds s.id
      = some { id := s.id, sound := s, gainTarget := s.volume, streamed := false
               volumeMultiplier := 1, fade := FadeState.idle }
  ∧ playSound s false st = st
  ∧ (playSound s true (playSound s false st)).sfxStarts = st.sfxStarts ++ [s.id] := by
  have hne : ¬ s.publicURL = none := by
    obtain ⟨u, hu'⟩ := Option.isSome_iff_exists.mp hu
    rw [hu']
    exact fun h => Option.noConfusion h
  have hload : loadSound s true st = { st with sfxBuffers := st.sfxBuffers ++ [s.id] } := by
    unfold loadSound
    rw [if_pos hs, if_neg (fun h => h.elim hnc hne), if_pos rfl]
  have hloadf : loadSound s false st = st := by
    unfold loadSound
    rw [if_pos hs, if_neg (fun h => h.elim hnc hne)]
    simp
  have hplay : playSound s true st
      = playSfxInternal s { st with sfxBuffers := st.sfxBuffers ++ [s.id] } := by
    unfold playSound
    rw [if_neg (by rw [hs]; decide), if_neg (by rw [hs]; decide), if_pos hs]
    unfold playSoundEffect
    rw [if_neg hnc, hload]
    rw [if_pos (by simp)]
  have hplayf : playSound s false st = st := by
    unfold playSound
    rw [if_neg (by rw [hs]; decide), if_neg (by rw [hs]; decide), if_pos hs]
    unfold playSoundEffect
    rw [if_neg hnc, hloadf, if_neg hnc]
  refine ⟨?_, ?_, ?_, hplayf, ?_⟩
  · rw [hplay]
    rfl
  · rw [hplay]
    show s.id ∈ st.sfxBuffers ++ [s.id]
    simp
  · rw [hplay]
    show mapGet (mapSet _ _) s.id = _
    rw [mapGet_mapSet, if_pos rfl]
  · rw [hplayf, hplay]
    rfl

theorem c9_retry_on_unloaded_witness :
    (shotY.id ∉ initialState.sfxBuffers)
  ∧ (playSound shotY true initialState).sfxStarts = initialState.sfxStarts ++ [shotY.id]
  ∧ playSound shotY false initialState = initialState :=
  ⟨by decide,
   (c9_retry_on_unloaded shotY initialState (by decide) (by decide) (by decide)).1,
   (c9_retry_on_unloaded shotY initialState (by decide) (by decide) (by decide)).2.2.2.1⟩

/-! ### Claim C6 -/

/-- C6 counterexample: with `musicA` mid-fade-out, `playSound(musicA)` does
not create a fresh fading-in ActiveSound — the engine state is exactly
unchanged (the entry is still the fading-out one), and once the fade-out
completes (the next timer step, here) the identifier is stopped: the
newest `play` call does not win. -/
theorem c6_counterexample :
    (mapGet stFadeOutA.activeSounds musicA.id).map (fun a => a.fade)
      = some FadeState.fadingOut
  ∧ playSound musicA true stFadeOutA = stFadeOutA
  ∧ isPlaying (tick stFadeOutA) musicA.id = false := by
  refine ⟨by decide, by decide, ?_⟩
  have hm : (0 : ℚ) - fadeStep ≤ 0 := by
    norm_num [fadeStep, Rat.mkRat_eq_div]
  have h1 : mapGet (tick stFadeOutA).activeSounds musicA.id
      = (mapGet stFadeOutA.activeSounds musicA.id).bind
          (tickOne stFadeOutA.masterBGMVolume) :=
    mapGet_filterMap_nodup (by decide) (fun a b h => tickOne_id h)
  have h2 : mapGet stFadeOutA.activeSounds musicA.id
      = some { id := "a", sound := musicA, gainTarget := 0, streamed := true,
               volumeMultiplier := 0, fade := FadeState.fadingOut } := by decide
  unfold isPlaying
  rw [h1, h2, Option.some_bind, tickOne_out _ _ rfl]
  rw [if_pos hm]
  rfl

/-- C6 amended: calling `playSound` on a Background-Music identifier whose
ActiveSound is mid-fade-out is a no-op — the engine state is unchanged, so
no fresh ActiveSound is created and the newest `play` call does not win;
the superseded instance simply continues its fade-out to completion (each
timer step lowers its multiplier by one fade step, and the step that
reaches 0 removes it), after which the identifier is stopped. -/
theorem c6_amended_replay_midfade_noop (s : Sound) (f : Bool) (st : SoundManager)
    (a : ActiveSound) (hs : s.type = "Background Music")
    (ha : mapGet st.activeSounds s.id = some a) (hf : a.fade = FadeState.fadingOut)
    (hnd : (st.activeSounds.map (fun a => a.id)).Nodup) :
    playSound s f st = st
  ∧ (a.volumeMultiplier ≤ fadeStep → mapGet (tick st).activeSounds s.id = none)
  ∧ (fadeStep < a.volumeMultiplier →
      mapGet (tick st).activeSounds s.id
        = some (updateVolume st.masterBGMVolume
            { a with volumeMultiplier := a.volumeMultiplier - fadeStep })) := by
  have hbind : mapGet (tick st).activeSounds s.id
      = (mapGet st.activeSounds s.id).bind (tickOne st.masterBGMVolume) :=
    mapGet_filterMap_nodup hnd (fun a b h => tickOne_id h)
  refine ⟨?_, ?_, ?_⟩
  · unfold playSound
    rw [if_pos hs]
    unfold playBGM
    rw [if_pos (by rw [ha]; rfl)]
  · intro hle
    rw [hbind, ha, Option.some_bind, tickOne_out _ _ hf,
        if_pos (by rwa [sub_nonpos])]
  · intro hlt
    rw [hbind, ha, Option.some_bind, tickOne_out _ _ hf,
        if_neg (by rw [sub_nonpos]; exact not_le.mpr hlt)]

theorem c6_amended_replay_midfade_noop_witness :
    mapGet stFadeOutA.activeSounds musicA.id
      = some { id := "a", sound := musicA, gainTarget := 0, streamed := true,
               volumeMultiplier := 0, fade := FadeState.fadingOut }
  ∧ playSound musicA true stFadeOutA = stFadeOutA :=
  ⟨by decide,
   (c6_amended_replay_midfade_noop musicA true stFadeOutA
     { id := "a", sound := musicA, gainTarget := 0, streamed := true,
       volumeMultiplier := 0, fade := FadeState.fadingOut }
     (by decide) (by decide) rfl (by decide)).1⟩

/-! ### Claim C8 -/

/-- C8 counterexample: with `musicA` freshly started (fade multiplier 0)
and the master level set to 1, the engine recomputes the target gain as
`sound.volume * volumeMultiplier * level = 0`, not `sound.volume * level`
as the claim's formula states — the fade multiplier factors into the
target, so the claim's formula is wrong for every ActiveSound whose fade
has not settled at multiplier 1. -/
theorem c8_counterexample :
    (mapGet (setMasterBGMVolume 1 stPlayA).activeSounds musicA.id).map
      (fun a => a.gainTarget) = some 0
  ∧ musicA.volume * 1 ≠ (0 : ℚ) := by
  constructor
  · have h2 : mapGet stPlayA.activeSounds musicA.id
        = some { id := "a", sound := musicA, gainTarget := 0, streamed := true,
                 volumeMultiplier := 0, fade := FadeState.fadingIn } := by decide
    have hmap : mapGet (setMasterBGMVolume 1 stPlayA).activeSounds musicA.id
        = (mapGet stPlayA.activeSounds musicA.id).map (fun b =>
            if b.sound.type = "Background Music" then updateVolume 1 b else b) :=
      mapGet_map_of_id _ _ (fun b => by
        by_cases h : b.sound.type = "Background Music" <;> simp [h, updateVolume_id])
    rw [hmap, h2, Option.map_some', Option.map_some']
    rw [if_pos (show musicA.type = "Background Music" from rfl)]
    unfold updateVolume
    simp
  · show mkRat 4 5 * 1 ≠ (0 : ℚ)
    norm_num [Rat.mkRat_eq_div]

/-- C8 amended: `setMasterBGMVolume level` stores the new master level and
recomputes each currently active Background-Music ActiveSound's target
gain as `sound.volume * volumeMultiplier * level` (which equals
`sound.volume * level` once the fade has settled at multiplier 1) and
schedules a smooth interpolation toward it; it changes nothing else — the
buffer cache and playback log are untouched, registry membership is
unchanged, non-Background-Music entries (one-shots, ambience) are
completely unchanged, and no fade in progress is restarted or cancelled
(the fade flag and multiplier of every entry are preserved; only the
target gain moves). -/
theorem c8_amended_master_volume (v : ℚ) (st : SoundManager) (i : String)
    (a : ActiveSound) (ha : mapGet st.activeSounds i = some a) :
    (setMasterBGMVolume v st).masterBGMVolume = v
  ∧ (setMasterBGMVolume v st).sfxBuffers = st.sfxBuffers
  ∧ (setMasterBGMVolume v st).sfxStarts = st.sfxStarts
  ∧ (∀ j, (mapGet (setMasterBGMVolume v st).activeSounds j).isSome
        = (mapGet st.activeSounds j).isSome)
  ∧ mapGet (setMasterBGMVolume v st).activeSounds i
      = some (if a.sound.type = "Background Music"
          then { a with gainTarget := a.sound.volume * a.volumeMultiplier * v } else a) := by
  have hid : ∀ b : ActiveSound, ((fun b => if b.sound.type = "Background Music"
      then updateVolume v b else b) b).id = b.id := by
    intro b
    by_cases h : b.sound.type = "Background Music" <;> simp [h, updateVolume_id]
  have hmap : ∀ j, mapGet (setMasterBGMVolume v st).activeSounds j
      = (mapGet st.activeSounds j).map (fun b =>
          if b.sound.type = "Background Music" then updateVolume v b else b) :=
    fun j => mapGet_map_of_id _ _ hid
  refine ⟨rfl, rfl, rfl, ?_, ?_⟩
  · intro j
    rw [hmap j]
    cases mapGet st.activeSounds j <;> rfl
  · rw [hmap i, ha, Option.map_some']
    by_cases h : a.sound.type = "Background Music"
    · rw [if_pos h, if_pos h]
      unfold updateVolume
      rw [if_pos h]
    · rw [if_neg h, if_neg h]

theorem c8_amended_master_volume_witness :
    mapGet stPlayA.activeSounds musicA.id
      = some { id := "a", sound := musicA, gainTarget := 0, streamed := true,
               volumeMultiplier := 0, fade := FadeState.fadingIn }
  ∧ (setMasterBGMVolume 1 stPlayA).masterBGMVolume = 1 :=
  ⟨by decide,
   (c8_amended_master_volume 1 stPlayA musicA.id
     { id := "a", sound := musicA, gainTarget := 0, streamed := true,
       volumeMultiplier := 0, fade := FadeState.fadingIn } (by decide)).1⟩

/-! ### Claim C1 -/

/-- C1: for every reachable engine state (any sequence of public
operations and timer steps from the fresh engine, music plays included),
once all fades have settled (no entry has a fade in flight) at most one
Background-Music ActiveSound has nonzero steady-state gain — two music
tracks are never playing simultaneously at steady state. The proof goes
through the inductive invariant that at most one Background-Music entry is
not fading out (`InvW`): starting a new track first retires every other
music entry into its fade-out, whose completion removes it. -/
theorem c1_at_most_one_music (lib : List Sound) (st : SoundManager)
    (hr : Reach lib st)
    (hsettle : ∀ a ∈ st.activeSounds, a.fade = FadeState.idle) :
    st.activeSounds.countP (fun a =>
      decide (a.sound.type = "Background Music") && decide (a.gainTarget ≠ 0)) ≤ 1 := by
  have hw := reach_invW hr
  refine le_trans (List.countP_mono_left ?_) hw.2.2
  intro a ha hpa
  unfold bgmLive
  simp only [Bool.and_eq_true, decide_eq_true_eq] at hpa ⊢
  refine ⟨hpa.1, ?_⟩
  rw [hsettle a ha]
  simp

theorem c1_at_most_one_music_witness :
    (∀ a ∈ stSettledY.activeSounds, a.fade = FadeState.idle)
  ∧ stSettledY.activeSounds.countP (fun a =>
      decide (a.sound.type = "Background Music") && decide (a.gainTarget ≠ 0)) ≤ 1 :=
  ⟨by decide,
   c1_at_most_one_music [musicA, musicB, shotY] stSettledY
     (Reach.step _ _ (Reach.step _ _ (Reach.step _ _ (Reach.step _ _ Reach.init
        (Step.play _ musicA true (by decide)))
        (Step.play _ musicB true (by decide)))
        (Step.stopAll _))
        (Step.play _ shotY true (by decide)))
     (by decide)⟩

/-! ### Claim C7 -/

/-- C7: once `fadeOut` has begun for an ActiveSound (its fade state is
fading-out), no engine step raises its volume multiplier or restarts the
ramp upward: after any public operation or timer step, the entry under
that identifier is either gone (its fade completed, or it was torn down)
or still fading out with a multiplier no larger than before — in
particular a timer step strictly lowers it, and calling `stopSound` again
on the same sound mid-fade leaves the multiplier unchanged and the fade
still downward. -/
theorem c7_fade_monotone (lib : List Sound) (st st' : SoundManager) (i : String)
    (a : ActiveSound) (hLW : LibWF lib) (hw : InvW st) (ht : InvT lib st)
    (hstep : Step lib st st')
    (ha : mapGet st.activeSounds i = some a) (hf : a.fade = FadeState.fadingOut) :
    ∀ a', mapGet st'.activeSounds i = some a' →
      a'.volumeMultiplier ≤ a.volumeMultiplier ∧ a'.fade = FadeState.fadingOut := by
  have heq : ∀ b, mapGet st.activeSounds i = some b →
      b.volumeMultiplier ≤ a.volumeMultiplier ∧ b.fade = FadeState.fadingOut := by
    intro b hb
    rw [ha] at hb
    injection hb with hb
    rw [← hb]
    exact ⟨le_refl _, hf⟩
  intro a' ha'
  cases hstep with
  | timer =>
      rw [show (tick st).activeSounds
            = st.activeSounds.filterMap (tickOne st.masterBGMVolume) from rfl,
          mapGet_filterMap_nodup hw.2.1 (fun a b h => tickOne_id h), ha,
          Option.some_bind] at ha'
      obtain ⟨h1, h2⟩ := tickOne_fadingOut hf ha'
      exact ⟨le_of_lt h2, h1⟩
  | load s f hs =>
      rw [loadSound_activeSounds] at ha'
      exact heq a' ha'
  | stopAll =>
      rw [show (stopAllSounds st).activeSounds = [] from
        stopAll_registry_aux st.activeSounds st (fun b hb => ⟨b, hb, rfl⟩)] at ha'
      exact absurd ha' (by simp [mapGet, List.find?])
  | setMaster v =>
      rw [show (setMasterBGMVolume v st).activeSounds
            = st.activeSounds.map (fun b =>
                if b.sound.type = "Background Music" then updateVolume v b else b)
          from rfl,
          mapGet_map_of_id _ _ (fun b => by
            by_cases h : b.sound.type = "Background Music" <;>
              simp [h, updateVolume_id]),
          ha, Option.map_some'] at ha'
      injection ha' with ha'
      rw [← ha']
      by_cases h : a.sound.type = "Background Music"
      · rw [if_pos h]
        exact ⟨le_of_eq (updateVolume_volumeMultiplier v a),
               (updateVolume_fade v a).trans hf⟩
      · rw [if_neg h]
        exact ⟨le_refl _, hf⟩
  | ended j =>
      cases hg : mapGet st.activeSounds j with
      | none =>
          simp only [sfxEnded, hg] at ha'
          exact heq a' ha'
      | some b =>
          by_cases hstr : b.streamed
          · simp only [sfxEnded, hg, hstr, if_true] at ha'
            exact heq a' ha'
          · simp only [sfxEnded, hg, hstr] at ha'
            rw [if_neg Bool.false_ne_true] at ha'
            have ha'' : mapGet (mapDelete st.activeSounds j) i = some a' := ha'
            rw [mapGet_mapDelete] at ha''
            by_cases hji : j = i
            · rw [if_pos hji] at ha''
              exact Option.noConfusion ha''
            · rw [if_neg hji] at ha''
              exact heq a' ha''
  | stop s hs =>
      by_cases hos : s.type = "One-shots"
      · cases hg : mapGet st.activeSounds s.id with
        | none =>
            rw [stopSound_absent hg] at ha'
            exact heq a' ha'
        | some b =>
            rw [stopSound_oneshot hg hos] at ha'
            have ha'' : mapGet (mapDelete st.activeSounds s.id) i = some a' := ha'
            rw [mapGet_mapDelete] at ha''
            by_cases hji : s.id = i
            · rw [if_pos hji] at ha''
              exact Option.noConfusion ha''
            · rw [if_neg hji] at ha''
              exact heq a' ha''
      · rw [stopSound_streamed st hos] at ha'
        have ha'' : mapGet (st.activeSounds.map (markOut s.id)) i = some a' := ha'
        rw [mapGet_map_of_id _ _ (markOut_id s.id), ha, Option.map_some'] at ha''
        injection ha'' with ha''
        rw [← ha'']
        refine ⟨le_of_eq (markOut_volumeMultiplier s.id a), ?_⟩
        cases markOut_fade s.id a with
        | inl h => rw [h]; exact hf
        | inr h => exact h
  | play s f hs =>
      unfold playSound at ha'
      by_cases h1 : s.type = "Background Music"
      · rw [if_pos h1] at ha'
        unfold playBGM at ha'
        by_cases hg : (mapGet st.activeSounds s.id).isSome
        · rw [if_pos hg] at ha'
          exact heq a' ha'
        · rw [if_neg hg] at ha'
          have habs : mapGet st.activeSounds s.id = none := by
            cases he : mapGet st.activeSounds s.id with
            | none => rfl
            | some b => rw [he] at hg; exact absurd rfl hg
          have hins : ¬ i = s.id := by
            intro he
            rw [he, habs] at ha
            exact Option.noConfusion ha
          have hfilter : ∀ b ∈ st.activeSounds.filter
              (fun b => decide (b.sound.type = "Background Music")),
              b.sound.type ≠ "One-shots" := by
            intro b hb
            have := (List.mem_filter.mp hb).2
            simp only [decide_eq_true_eq] at this
            rw [this]
            intro hcon
            exact absurd hcon (by decide)
          have ha'' : mapGet (startStreamedSound s true
              ((st.activeSounds.filter
                (fun b => decide (b.sound.type = "Background Music"))).foldl
                  (fun acc b => stopSound b.sound acc) st)).activeSounds i
              = some a' := ha'
          rw [foldl_stopSound _ st hfilter] at ha''
          set G := fun b => (st.activeSounds.filter
            (fun b => decide (b.sound.type = "Background Music"))).foldl
              (fun c x => markOut x.sound.id c) b with hG
          have hGid : ∀ b, (G b).id = b.id := by
            intro b
            rw [hG]
            simp only [foldl_markOut]
            split <;> rfl
          have hGfacts : (G a).volumeMultiplier = a.volumeMultiplier
              ∧ (G a).fade = FadeState.fadingOut := by
            rw [hG]
            simp only [foldl_markOut]
            split
            · exact ⟨rfl, rfl⟩
            · exact ⟨rfl, hf⟩
          have habs' : mapGet (st.activeSounds.map G) s.id = none := by
            rw [mapGet_map_of_id _ _ hGid, habs]
            rfl
          cases hurl : s.publicURL with
          | none =>
              simp only [startStreamedSound, hurl] at ha''
              have ha3 : mapGet (st.activeSounds.map G) i = some a' := ha''
              rw [mapGet_map_of_id _ _ hGid, ha, Option.map_some'] at ha3
              injection ha3 with ha3
              rw [← ha3]
              exact ⟨le_of_eq hGfacts.1, hGfacts.2⟩
          | some u =>
              simp only [startStreamedSound, hurl] at ha''
              have ha3 : mapGet (mapSet (st.activeSounds.map G)
                  { id := s.id, sound := s, gainTarget := 0, streamed := true,
                    volumeMultiplier := 0, fade := FadeState.fadingIn }) i
                  = some a' := ha''
              have hid2 : ({ id := s.id, sound := s, gainTarget := 0, streamed := true,
                             volumeMultiplier := 0,
                             fade := FadeState.fadingIn } : ActiveSound).id = s.id := rfl
              rw [mapGet_mapSet, hid2, if_neg (fun he => hins he.symm)] at ha3
              rw [mapGet_map_of_id _ _ hGid, ha, Option.map_some'] at ha3
              injection ha3 with ha3
              rw [← ha3]
              exact ⟨le_of_eq hGfacts.1, hGfacts.2⟩
      · rw [if_neg h1] at ha'
        by_cases h2 : s.type = "Ambience"
        · rw [if_pos h2] at ha'
          unfold playAmbience at ha'
          by_cases hg : (mapGet st.activeSounds s.id).isSome
          · rw [if_pos hg] at ha'
            exact heq a' ha'
          · rw [if_neg hg] at ha'
            have habs : mapGet st.activeSounds s.id = none := by
              cases he : mapGet st.activeSounds s.id with
              | none => rfl
              | some b => rw [he] at hg; exact absurd rfl hg
            have hins : ¬ i = s.id := by
              intro he
              rw [he, habs] at ha
              exact Option.noConfusion ha
            cases hurl : s.publicURL with
            | none =>
                simp only [startStreamedSound, hurl] at ha'
                exact heq a' ha'
            | some u =>
                simp only [startStreamedSound, hurl] at ha'
                have ha'' : mapGet (mapSet st.activeSounds
                    { id := s.id, sound := s, gainTarget := 0, streamed := true,
                      volumeMultiplier := 0, fade := FadeState.fadingIn }) i
                    = some a' := ha'
                have hid2 : ({ id := s.id, sound := s, gainTarget := 0, streamed := true,
                               volumeMultiplier := 0,
                               fade := FadeState.fadingIn } : ActiveSound).id = s.id := rfl
                rw [mapGet_mapSet, hid2, if_neg (fun he => hins he.symm)] at ha''
                exact heq a' ha''
        · rw [if_neg h2] at ha'
          by_cases h3 : s.type = "One-shots"
          · rw [if_pos h3] at ha'
            have hins : ¬ i = s.id := by
              intro he
              have hmem := mapGet_mem ha
              have hno := (ht a hmem).2 hf
              have hsound : a.sound = s := by
                apply hLW a.sound (ht a hmem).1 s hs
                rw [← hw.1 a hmem, mapGet_id ha, he]
              exact hno (by rw [hsound]; exact h3)
            rw [playSoundEffect_mapGet_ne s f st i hins] at ha'
            exact heq a' ha'
          · rw [if_neg h3] at ha'
            exact heq a' ha'

theorem c7_fade_monotone_witness :
    LibWF [musicA]
  ∧ InvW stFadeOutA
  ∧ InvT [musicA] stFadeOutA
  ∧ mapGet stFadeOutA.activeSounds "a"
      = some { id := "a", sound := musicA, gainTarget := 0, streamed := true,
               volumeMultiplier := 0, fade := FadeState.fadingOut }
  ∧ (∀ a', mapGet (stopSound musicA stFadeOutA).activeSounds "a" = some a' →
      a'.volumeMultiplier ≤ (0 : ℚ) ∧ a'.fade = FadeState.fadingOut) :=
  ⟨by decide, by decide, by decide, by decide,
   c7_fade_monotone [musicA] stFadeOutA (stopSound musicA stFadeOutA) "a"
     { id := "a", sound := musicA, gainTarget := 0, streamed := true,
       volumeMultiplier := 0, fade := FadeState.fadingOut }
     (by decide) (by decide) (by decide)
     (Step.stop _ musicA (by decide)) (by decide) rfl⟩

end SoundsSpec
